import Mathlib

/-!
Verification development for the remote test-execution system
(server `Server_depen/Server3.py`, client `Client6.py`, reference test-case
dispatcher `Server_depen/test_case_2.py`).

The Python sources are shallowly embedded as executable Lean definitions.
Conventions used throughout:

* Statuses and messages are plain `String`s, exactly as in the Python code
  (the code uses string literals, not an enum).
* The server attribute `self.test_running` is the cooperative should-continue
  flag.  During one worker run it starts `true` and can only be flipped to
  `false` by an external `stop` command (nothing flips it back to `true`
  while the worker runs, since `handle_start_command` rejects a `start`
  while it is `true`).  We therefore model the sequence of reads of the flag
  by a single optional stop phase `stopAt : Option Nat`: the read performed
  at logical phase `p` returns `true` iff the flag has not yet been flipped
  at phase `p`.  Phase `0` is the pre-loop (setup message) read, phase `i`
  is the read performed while handling loadlist item `i`, and the post-loop
  reads happen at the phase at which the loop exited.
* Python exceptions are modelled with `Except String`: `.error msg` is a
  raised exception whose `str()` is `msg`.
* The plugin instance (`self.current_model_instance`) is tracked only by
  presence (`has_model_instance`), since the claims are about it being
  cleared.
-/

namespace Client1

/-- Outward message, `{"message": ..., "status": ...}` as built by
`Server3.py` (`Event` in the spec). -/
structure Event where
  message : String
  status : String
deriving DecidableEq, Repr

/-- One loadlist entry (`LoadlistItem` in the spec): the dictionaries held in
`test_config['loadlist']`. -/
structure Item where
  temperature : String
  band : String
  test_cases : List String
deriving DecidableEq, Repr

/-- A validated test configuration, as consumed by the worker after
`handle_start_command` has checked that all four fields are present. -/
structure TestConfig where
  serial_number : String
  model : String
  stage : String
  loadlist : List Item
deriving DecidableEq, Repr

/-- The server-wide run state touched by the worker: `self.test_running`,
`self.current_test`, and whether `self.current_model_instance` is set. -/
structure RunState where
  test_running : Bool
  current_test : Option TestConfig
  has_model_instance : Bool
deriving DecidableEq, Repr

/-- The state the `finally` clause of `execute_model_test` leaves behind:
`test_running = False`, `current_test = None`,
`current_model_instance = None`. -/
def idleRunState : RunState := ⟨false, none, false⟩

/-- `status_callback` defined inside `TestServer.execute_model_test`
(Server3.py lines 239-241): it broadcasts the event only when
`self.test_running` is still true, otherwise the message is dropped.
The returned list is the list of broadcast events (empty = discarded). -/
def status_callback (test_running : Bool) (message : String) (status : String) :
    List Event :=
  if test_running then [⟨message, status⟩] else []

/-- Value of the `self.test_running` read performed at logical phase `p`,
given the optional phase `stopAt` at which an external `stop` flipped the
flag to false (`none` = never stopped). -/
def runningAt (stopAt : Option Nat) (p : Nat) : Bool :=
  match stopAt with
  | none => true
  | some s => decide (p < s)

/-- The per-item progress message
`f"--- Running Loadlist item {i+1}/{len(loadlist)}: Temp={temp}, Band={band} ---"`. -/
def header_msg (i total : Nat) (it : Item) : String :=
  "--- Running Loadlist item " ++ toString (i + 1) ++ "/" ++ toString total ++
    ": Temp=" ++ it.temperature ++ ", Band=" ++ it.band ++ " ---"

/-- The per-item failure message `f"Failed item: Temp={temp}, Band={band}"`. -/
def failed_item_msg (it : Item) : String :=
  "Failed item: Temp=" ++ it.temperature ++ ", Band=" ++ it.band

/-- How the loadlist loop of `execute_model_test` terminated: completed all
items, broke because the should-continue flag was false, or a call to
`run_tests` raised. -/
inductive LoopExit where
  | done : LoopExit
  | stopped : LoopExit
  | raised : String → LoopExit
deriving DecidableEq, Repr

/-- Observable outcome of the loadlist loop: broadcast events, the
`run_tests` invocations in order, the value of `overall_success`, the phase
at which the loop exited, and how it exited. -/
structure LoopOut where
  events : List Event
  invoked : List Item
  success : Bool
  phase : Nat
  exitKind : LoopExit
deriving Repr

/-- The `for i, run_item in enumerate(loadlist):` loop of
`TestServer.execute_model_test` (Server3.py lines 261-278).  `runTests i it`
is the plugin's `run_tests(run_item)` for item `it` at index `i`
(`.error msg` models it raising).  `i` is the index of the next item,
`acc` the current `overall_success`. -/
def loadlistLoop (stopAt : Option Nat) (runTests : Nat → Item → Except String Bool)
    (total : Nat) : Nat → List Item → Bool → LoopOut
  | i, [], acc => ⟨[], [], acc, i, .done⟩
  | i, it :: rest, acc =>
    if runningAt stopAt i then
      let ev1 := status_callback (runningAt stopAt i) (header_msg i total it) "running"
      match runTests i it with
      | .error msg => ⟨ev1, [it], acc, i, .raised msg⟩
      | .ok b =>
        let ev2 :=
          if b then []
          else status_callback (runningAt stopAt i) (failed_item_msg it) "error"
        let r := loadlistLoop stopAt runTests total (i + 1) rest (acc && b)
        ⟨ev1 ++ ev2 ++ r.events, it :: r.invoked, r.success, r.phase, r.exitKind⟩
    else
      ⟨status_callback (runningAt stopAt i) "Test execution was stopped." "stopped",
        [], false, i, .stopped⟩

/-- A plugin whose `run_tests` never raises and returns `f it` for item
`it` — the shape required by the Model Plugin contract. -/
def runOfFun (f : Item → Bool) : Nat → Item → Except String Bool :=
  fun _ it => Except.ok (f it)

/-- Outcome of the plugin-resolution part of `execute_model_test`:
`load_model_module` returned `None`, the module lacks the required class,
or resolution succeeded. -/
inductive ResolutionOutcome where
  | moduleNotFound : ResolutionOutcome
  | classMissing : ResolutionOutcome
  | resolved : ResolutionOutcome
deriving DecidableEq, Repr

/-- `model_class_name` computed in `execute_model_test` (Server3.py line 243):
`f"Model{model_name[-1]}"` when the name starts with `"Model"` and is longer
than 5 characters, else the name itself. -/
def model_class_name (model_name : String) : String :=
  if model_name.startsWith "Model" ∧ model_name.length > 5 then
    "Model" ++ (match model_name.data.getLast? with
                | some c => String.mk [c]
                | none => "")
  else model_name

/-- Observable outcome of one worker run: the events it broadcast (via the
guarded `status_callback` or directly via `broadcast_to_all_clients`), the
`run_tests` invocations in order, the final value of `overall_success`, and
the `RunState` left behind by the `finally` clause. -/
structure WorkerResult where
  events : List Event
  invoked : List Item
  success : Bool
  finalState : RunState
deriving Repr

/-- `TestServer.execute_model_test` (Server3.py lines 229-301).

Parameters abstract the external interactions of the worker:
* `res` — outcome of module loading / class lookup;
* `setupOk` — the boolean returned by `plugin.setup()` (the plugin raising in
  `setup` follows the same `except` path as returning false);
* `runTests` — the plugin's `run_tests`, possibly raising;
* `cleanupRes` — whether `plugin.cleanup()` returns or raises;
* `stopAt` — the phase at which an external `stop` flipped
  `self.test_running` (see `runningAt`).

Every branch ends in `idleRunState` because the Python `finally` clause
resets `test_running`, `current_test` and `current_model_instance`
unconditionally. -/
def execute_model_test (res : ResolutionOutcome) (setupOk : Bool)
    (runTests : Nat → Item → Except String Bool) (cleanupRes : Except String Unit)
    (stopAt : Option Nat) (cfg : TestConfig) (model_name : String) : WorkerResult :=
  match res with
  | .moduleNotFound =>
    -- `raise ModuleNotFoundError(...)` before any callback; the except
    -- branch broadcasts unconditionally; no instance exists, so no cleanup.
    ⟨[⟨"Test execution error: Model module \x27" ++ model_name ++
        ".py\x27 not found", "error"⟩], [], false, idleRunState⟩
  | .classMissing =>
    ⟨[⟨"Test execution error: Model module \x27" ++ model_name ++
        ".py\x27 missing required class \x27" ++ model_class_name model_name ++
        "\x27", "error"⟩], [], false, idleRunState⟩
  | .resolved =>
    let ev0 := status_callback (runningAt stopAt 0)
      ("Setting up " ++ model_name ++ " test environment...") "running"
    if setupOk then
      let L := loadlistLoop stopAt runTests cfg.loadlist.length 0 cfg.loadlist true
      match L.exitKind with
      | .raised msg =>
        -- exception escaping `run_tests`: except branch broadcasts the error
        -- (unguarded), attempts cleanup, and `overall_success = False`.
        ⟨ev0 ++ L.events ++ [⟨"Test execution error: " ++ msg, "error"⟩],
          L.invoked, false, idleRunState⟩
      | _ =>
        let evClean := status_callback (runningAt stopAt L.phase)
          ("Cleaning up " ++ model_name ++ " test environment...") "running"
        match cleanupRes with
        | .error cmsg =>
          -- `cleanup()` raised inside the try block: except branch broadcasts
          -- and retries cleanup (swallowed); `overall_success = False`.
          ⟨ev0 ++ L.events ++ evClean ++
            [⟨"Test execution error: " ++ cmsg, "error"⟩],
            L.invoked, false, idleRunState⟩
        | .ok _ =>
          let finalEvs :=
            if runningAt stopAt L.phase then
              [⟨(if L.success then "Test completed successfully for SN: "
                 else "Test finished with errors for SN: ") ++ cfg.serial_number,
                if L.success then "completed" else "error"⟩]
            else []
          ⟨ev0 ++ L.events ++ evClean ++ finalEvs, L.invoked, L.success,
            idleRunState⟩
    else
      -- `if not self.current_model_instance.setup(): raise RuntimeError(...)`
      ⟨ev0 ++ [⟨"Test execution error: Setup failed for " ++ model_name,
        "error"⟩], [], false, idleRunState⟩

/-! ## Session command handling (Server3.py lines 108-227)

The test configuration arriving in a `start` command is an arbitrary JSON
object, so each required field is modelled as optional.  `none` for the
whole configuration covers both an absent `test_config` key and an empty
dict (both falsy in `handle_start_command`). -/

/-- The raw `test_config` dictionary of a `start` command. -/
structure RawConfig where
  serial_number : Option String
  model : Option String
  stage : Option String
  loadlist : Option (List Item)
deriving DecidableEq, Repr

/-- The pieces of server state a command handler reads or writes:
`self.test_running` and `self.current_test`. -/
structure ServerState where
  test_running : Bool
  current_test : Option RawConfig
deriving DecidableEq, Repr

/-- Observable outcome of handling one command: events sent to the sending
client only, events broadcast to every client, the state afterwards, and
the configuration a worker thread was spawned for (if any). -/
structure HandleResult where
  toSender : List Event
  broadcast : List Event
  state : ServerState
  spawned : Option RawConfig
deriving DecidableEq, Repr

/-- `missing_fields` computed in `handle_start_command` (line 143), in the
order of `required_fields`. -/
def missing_fields (tc : RawConfig) : List String :=
  (if tc.serial_number.isNone then ["serial_number"] else []) ++
  (if tc.model.isNone then ["model"] else []) ++
  (if tc.stage.isNone then ["stage"] else []) ++
  (if tc.loadlist.isNone then ["loadlist"] else [])

/-- `TestServer.start_test` (lines 188-217): set `test_running`/`current_test`,
broadcast the starting event, then check the model name (an empty string is
falsy, raising `ValueError`, whose `except` resets the state and reports to
the sender only); otherwise spawn the worker thread. -/
def start_test (_st : ServerState) (tc : RawConfig) : HandleResult :=
  let bc := [⟨"Starting test for SN: " ++ tc.serial_number.getD "", "running"⟩]
  if (tc.model.getD "").isEmpty then
    ⟨[⟨"Failed to start test: No model specified in test configuration",
      "error"⟩], bc, ⟨false, none⟩, none⟩
  else
    ⟨[], bc, ⟨true, some tc⟩, some tc⟩

/-- `TestServer.handle_start_command` (lines 124-161). -/
def handle_start_command (st : ServerState) (test_config : Option RawConfig) :
    HandleResult :=
  if st.test_running then
    ⟨[⟨"Test already running. Please stop current test first.", "running"⟩],
      [], st, none⟩
  else
    match test_config with
    | none => ⟨[⟨"No test configuration provided", "error"⟩], [], st, none⟩
    | some tc =>
      if (missing_fields tc).isEmpty then
        if (tc.loadlist.getD []).isEmpty then
          ⟨[⟨"The \x27loadlist\x27 must be a non-empty list.", "error"⟩],
            [], st, none⟩
        else start_test st tc
      else
        ⟨[⟨"Missing required fields: " ++
            String.intercalate ", " (missing_fields tc), "error"⟩],
          [], st, none⟩

/-- `TestServer.handle_stop_command` (lines 164-173) together with
`stop_test` (lines 219-227): when idle, reply `status=idle` to the sender
only; when running, flip the flag, broadcast `status=stopped` and clear
`current_test`. -/
def handle_stop_command (st : ServerState) : HandleResult :=
  if st.test_running then
    ⟨[], [⟨"Test stopped by user request", "stopped"⟩], ⟨false, none⟩, none⟩
  else
    ⟨[⟨"No test currently running", "idle"⟩], [], st, none⟩

/-! ## Catalog query (Client6.py lines 57-82)

`get_testcase` works on the `TestCaseRules` and `TestCaseDefinitions`
sheets, modelled as lists of rows in sheet order. -/

/-- One row of the `TestCaseRules` sheet. -/
structure Rule where
  ModelID : Int
  BandID : Int
  TemperatureID : Int
  TestCaseID : Int
  Priority : Int
deriving DecidableEq, Repr

/-- One row of the `TestCaseDefinitions` sheet. -/
structure TestCaseDef where
  ID : Int
  TestCaseName : String
deriving DecidableEq, Repr

/-- The row-mask `model_match & band_match & temp_match` of `get_testcase`:
a rule field equal to 0 is a wildcard. -/
def ruleMatches (model_id band_id temperature_id : Int) (r : Rule) : Bool :=
  (r.ModelID == model_id || r.ModelID == 0) &&
  (r.BandID == band_id || r.BandID == 0) &&
  (r.TemperatureID == temperature_id || r.TemperatureID == 0)

/-- Minimum of a nonempty list of priorities (`Series.min`). -/
def foldMin : Int → List Int → Int
  | p, [] => p
  | p, q :: qs => foldMin (min p q) qs

/-- `get_testcase(model_id, band_id, temperature_id)` (Client6.py lines
57-82): filter the rules by the wildcard-tolerant mask, keep the rows whose
`Priority` is the minimum, dedup their `TestCaseID`s (`Series.unique`), and
return the definition rows whose `ID` is among them (`isin`), in
definition-sheet order. -/
def get_testcase (rules : List Rule) (defs : List TestCaseDef)
    (model_id band_id temperature_id : Int) : List TestCaseDef :=
  match rules.filter (ruleMatches model_id band_id temperature_id) with
  | [] => []
  | a :: rest =>
    let highest_priority := foldMin a.Priority (rest.map (·.Priority))
    let winning := (a :: rest).filter (fun r => r.Priority == highest_priority)
    let test_case_ids := (winning.map (·.TestCaseID)).dedup
    defs.filter (fun d => test_case_ids.contains d.ID)

/-! ## Reference test-case dispatcher (test_case_2.py lines 31-62) -/

/-- The name normalization of `TestCases2.run_test_by_name` (line 44):
`"test_" + test_name.lower().replace(' ', '_').replace('/', '_')`.
(`String.toLower` lowercases ASCII letters; the test-case names in the data
tables are ASCII.) -/
def normalize_test_name (test_name : String) : String :=
  "test_" ++ ((test_name.toLower).replace " " "_").replace "/" "_"

/-- The `{'passed': ..., 'message': ...}` dictionary returned by
`run_test_by_name`. -/
structure TestResult where
  passed : Bool
  message : String
deriving DecidableEq, Repr

/-- The callable test methods of `TestCases2` (every attribute reachable
through the `"test_" + ...` normalization that is callable). -/
def testCases2_method_names : List String :=
  ["test_gain_flatness", "test_power_sweep", "test_am_pm", "test_spur"]

/-- `TestCases2.run_test_by_name` (lines 31-62).  `methods` is the
`getattr`/`callable` lookup: `none` when the normalized name has no callable
implementation, `some (.ok b)` when the method returns `b`, and
`some (.error e)` when it raises `e` (caught by the inner `try`). -/
def run_test_by_name (methods : String → Option (Except String Bool))
    (test_name : String) : TestResult :=
  match methods (normalize_test_name test_name) with
  | some (.ok b) =>
    ⟨b, if b then "\x27" ++ test_name ++ "\x27 completed."
        else "\x27" ++ test_name ++ "\x27 failed during execution."⟩
  | some (.error e) =>
    ⟨false, "Execution error in \x27" ++ test_name ++ "\x27: " ++ e⟩
  | none =>
    ⟨false, "Test case \x27" ++ test_name ++ "\x27 is not implemented in TestCases2."⟩

/-! ## Framed channel (Server3.py lines 323-329, Client6.py lines 216-238)

The writer side is `send_to_client`: `json.dumps(message) + '\n'`.  The
reader side is `SocketManager.process_buffer`, which repeatedly applies
`json.JSONDecoder().raw_decode` to the buffer at an offset.

`json.dumps` with its default arguments (`ensure_ascii=True`,
separators `', '` / `': '`, insertion-ordered keys) is part of the Python
standard library, not of this repository; `escapeChar` transcribes its
documented escaping rules, and `parse_json_string_body` /
`parse_event` transcribe `raw_decode` restricted to the two-key object
shape the server emits.  (Python additionally accepts lone surrogate
escapes, which are not representable as a Lean `Char` and are never
produced by the writer side.) -/

/-- The character `{` (written numerically so that brace characters never
appear in code). -/
def lbrace : Char := Char.ofNat 123

/-- The character `}`. -/
def rbrace : Char := Char.ofNat 125

/-- Lowercase hex digit, as emitted by `json.dumps` escapes. -/
def hexDigitChar (n : Nat) : Char :=
  if n < 10 then Char.ofNat (48 + n) else Char.ofNat (87 + n)

/-- Four-digit lowercase hex rendering of `n < 0x10000` (`'\u%04x'`). -/
def toHex4 (n : Nat) : List Char :=
  [hexDigitChar (n / 4096 % 16), hexDigitChar (n / 256 % 16),
   hexDigitChar (n / 16 % 16), hexDigitChar (n % 16)]

/-- `json.dumps` escaping of one character (`py_encode_basestring_ascii`):
named escapes for `"` `\` and the common control characters, `\uXXXX` for
the remaining characters outside printable ASCII, with a surrogate pair for
characters beyond the Basic Multilingual Plane. -/
def escapeChar (c : Char) : List Char :=
  if c = '\"' then ['\\', '\"']
  else if c = '\\' then ['\\', '\\']
  else if c = '\n' then ['\\', 'n']
  else if c = '\r' then ['\\', 'r']
  else if c = '\t' then ['\\', 't']
  else if c.toNat = 8 then ['\\', 'b']
  else if c.toNat = 12 then ['\\', 'f']
  else if c.toNat < 32 ∨ 127 ≤ c.toNat then
    if c.toNat < 65536 then '\\' :: 'u' :: toHex4 c.toNat
    else ('\\' :: 'u' :: toHex4 (55296 + (c.toNat - 65536) / 1024)) ++
         ('\\' :: 'u' :: toHex4 (56320 + (c.toNat - 65536) % 1024))
  else [c]

/-- JSON rendering of a string, `json.dumps`-style. -/
def encode_json_string (s : String) : List Char :=
  '\"' :: s.data.flatMap escapeChar ++ ['\"']

/-- `json.dumps({"message": ..., "status": ...})`: keys in insertion order,
`', '` and `': '` separators. -/
def encode_event (e : Event) : List Char :=
  lbrace :: encode_json_string "message" ++ ':' :: ' ' ::
    encode_json_string e.message ++ ',' :: ' ' ::
    encode_json_string "status" ++ ':' :: ' ' ::
    encode_json_string e.status ++ [rbrace]

/-- `TestServer.send_to_client` (Server3.py lines 323-329): the bytes put on
the wire for one event, `json.dumps(message) + '\n'`. -/
def send_to_client (e : Event) : List Char := encode_event e ++ ['\n']

/-- JSON whitespace (the characters `raw_decode` and the `skipkeys` scanning
treat as insignificant: space, tab, newline, carriage return). -/
def isJsonWS (c : Char) : Bool := c = ' ' || c = '\t' || c = '\n' || c = '\r'

/-- Skip insignificant whitespace. -/
def skipWS (cs : List Char) : List Char := cs.dropWhile isJsonWS

/-- Value of one hex digit (both cases accepted, as in the decoder). -/
def hexVal (c : Char) : Option Nat :=
  if '0' ≤ c ∧ c ≤ '9' then some (c.toNat - 48)
  else if 'a' ≤ c ∧ c ≤ 'f' then some (c.toNat - 87)
  else if 'A' ≤ c ∧ c ≤ 'F' then some (c.toNat - 55)
  else none

/-- Value of a four-digit hex escape. -/
def hex4 (c1 c2 c3 c4 : Char) : Option Nat := do
  let d1 ← hexVal c1
  let d2 ← hexVal c2
  let d3 ← hexVal c3
  let d4 ← hexVal c4
  pure (d1 * 4096 + d2 * 256 + d3 * 16 + d4)

/-- Prepend a decoded character to a string-body parse result. -/
def consOut (c : Char) :
    Option (List Char × List Char) → Option (List Char × List Char)
  | some (s, r) => some (c :: s, r)
  | none => none

/-- Decoder of a JSON string body (after the opening quote), returning the
decoded characters and the remainder after the closing quote.  Transcribes
`json.decoder.py_scanstring` in strict mode: named escapes, `\uXXXX`
escapes with surrogate-pair combination, and a hard error on unescaped
control characters.

The first argument bounds the number of decoded characters (the scan
consumes at least one input character per decoded character and is given a
budget of `input length + 1` by `parse_json_string`, so the `0` case is
never reached). -/
def parse_json_string_body : Nat → List Char → Option (List Char × List Char)
  | 0, _ => none
  | _ + 1, [] => none
  | fuel + 1, c :: rest =>
    if c = '\"' then some ([], rest)
    else if c = '\\' then
      match rest with
      | [] => none
      | e :: rest2 =>
        if e = 'u' then
          match rest2 with
          | c1 :: c2 :: c3 :: c4 :: rest3 =>
            (match hex4 c1 c2 c3 c4 with
             | none => none
             | some n =>
               if n < 55296 ∨ 57344 ≤ n then
                 consOut (Char.ofNat n) (parse_json_string_body fuel rest3)
               else if n < 56320 then
                 match rest3 with
                 | e2 :: u2 :: d1 :: d2 :: d3 :: d4 :: rest4 =>
                   if e2 = '\\' ∧ u2 = 'u' then
                     (match hex4 d1 d2 d3 d4 with
                      | none => none
                      | some m =>
                        if 56320 ≤ m ∧ m < 57344 then
                          consOut
                            (Char.ofNat
                              (65536 + (n - 55296) * 1024 + (m - 56320)))
                            (parse_json_string_body fuel rest4)
                        else none)
                   else none
                 | _ => none
               else none)
          | _ => none
        else if e = '\"' then consOut '\"' (parse_json_string_body fuel rest2)
        else if e = '\\' then consOut '\\' (parse_json_string_body fuel rest2)
        else if e = '/' then consOut '/' (parse_json_string_body fuel rest2)
        else if e = 'b' then
          consOut (Char.ofNat 8) (parse_json_string_body fuel rest2)
        else if e = 'f' then
          consOut (Char.ofNat 12) (parse_json_string_body fuel rest2)
        else if e = 'n' then consOut '\n' (parse_json_string_body fuel rest2)
        else if e = 'r' then consOut '\r' (parse_json_string_body fuel rest2)
        else if e = 't' then consOut '\t' (parse_json_string_body fuel rest2)
        else none
    else if c.toNat < 32 then none
    else consOut c (parse_json_string_body fuel rest)

/-- Decoder of a complete JSON string (opening quote included). -/
def parse_json_string (cs : List Char) : Option (List Char × List Char) :=
  match cs with
  | '\"' :: rest => parse_json_string_body (rest.length + 1) rest
  | _ => none

/-- Expect one specific character. -/
def expectChar (c : Char) : List Char → Option (List Char)
  | [] => none
  | x :: rest => if x = c then some rest else none

/-- `json.JSONDecoder().raw_decode` restricted to the object shape the
server emits: `{"message": <string>, "status": <string>}`.  Returns the
decoded event and the unconsumed remainder (`raw_decode`'s `end_pos` is the
number of consumed characters, i.e. the length difference). -/
def parse_event (cs : List Char) : Option (Event × List Char) := do
  let r0 ← expectChar lbrace cs
  let (k1, r1) ← parse_json_string (skipWS r0)
  if k1 = "message".data then do
    let r2 ← expectChar ':' (skipWS r1)
    let (msg, r3) ← parse_json_string (skipWS r2)
    let r4 ← expectChar ',' (skipWS r3)
    let (k2, r5) ← parse_json_string (skipWS r4)
    if k2 = "status".data then do
      let r6 ← expectChar ':' (skipWS r5)
      let (stv, r7) ← parse_json_string (skipWS r6)
      let r8 ← expectChar rbrace (skipWS r7)
      pure (⟨String.mk msg, String.mk stv⟩, r8)
    else none
  else none

/-- Python `str.isspace` for the characters that can occur here (ASCII
whitespace; the skip loop of `process_buffer` only ever sees the `'\n'`
frame separators). -/
def isPySpace (c : Char) : Bool :=
  c = ' ' || c = '\t' || c = '\n' || c = '\r' || c.toNat = 11 || c.toNat = 12

/-- Result of `process_buffer`: the objects handed to `handle_message`, the
final `start_pos`, and the buffer contents before the final trim. -/
structure BufferOut where
  handled : List Event
  startPos : Nat
  buffer : List Char
deriving DecidableEq, Repr

/-- The `while start_pos < len(self.buffer)` loop of
`SocketManager.process_buffer` (Client6.py lines 216-236).

On a successful `raw_decode`, `start_pos` advances past the consumed
characters and then past any whitespace.  On failure, a buffer whose
unconsumed tail exceeds 1000 characters is truncated to its last 500
characters (`self.buffer[-500:]`), otherwise `start_pos` jumps to the next
brace after `start_pos` (`self.buffer.find('{', start_pos + 1)`), and the
loop breaks when there is none.

The loop terminates because every iteration either strictly advances
`start_pos` (a successful decode consumes at least the opening brace) or
truncates a buffer of more than 1000 unconsumed characters to 500; the
explicit iteration bound `fuel`, supplied as `length + 1002` by
`process_buffer`, is therefore never exhausted. -/
def processLoop : Nat → List Char → Nat → List Event → BufferOut
  | 0, buffer, startPos, acc => ⟨acc, startPos, buffer⟩
  | fuel + 1, buffer, startPos, acc =>
    if startPos < buffer.length then
      match parse_event (buffer.drop startPos) with
      | some (e, rem) =>
        let consumed := (buffer.drop startPos).length - rem.length
        let afterObj := startPos + consumed
        let ws := ((buffer.drop afterObj).takeWhile isPySpace).length
        processLoop fuel buffer (afterObj + ws) (acc ++ [e])
      | none =>
        if 1000 < buffer.length - startPos then
          processLoop fuel (buffer.drop (buffer.length - 500)) 0 acc
        else
          match (buffer.drop (startPos + 1)).findIdx? (fun c => c = lbrace) with
          | some j => processLoop fuel buffer (startPos + 1 + j) acc
          | none => ⟨acc, startPos, buffer⟩
    else ⟨acc, startPos, buffer⟩

/-- `SocketManager.process_buffer` (Client6.py lines 216-238): run the
decode loop on the buffer, then keep only the unconsumed tail
(`if start_pos > 0: self.buffer = self.buffer[start_pos:]`).  Returns the
decoded objects in order and the remaining buffer. -/
def process_buffer (buffer : List Char) : List Event × List Char :=
  let r := processLoop (buffer.length + 1002) buffer 0 []
  (r.handled, if r.startPos > 0 then r.buffer.drop r.startPos else r.buffer)

/-- The bytes of several events written back-to-back by `send_to_client`
without an intervening read on the receiver side. -/
def frames : List Event → List Char
  | [] => []
  | e :: es => send_to_client e ++ frames es

/-- Concrete loadlist item used by closed witnesses and counterexamples. -/
def item25 : Item := ⟨"25C", "B1", ["gain flatness"]⟩

/-- Concrete one-item test configuration used by closed witnesses and
counterexamples (Scenario A of the spec). -/
def cfgSN1 : TestConfig := ⟨"SN1", "ModelC", "S1", [item25]⟩

/-!
# Theorems
-/

/-- The guarded callback broadcasts nothing when the flag is false. -/
theorem status_callback_false (message status : String) :
    status_callback false message status = [] := rfl

/-- The guarded callback broadcasts the event when the flag is true. -/
theorem status_callback_true (message status : String) :
    status_callback true message status = [⟨message, status⟩] := rfl

/-- With no stop request the loop visits every item in order, ANDs the
`run_tests` results into `overall_success`, completes, and exits at phase
`i + l.length`. -/
theorem loadlistLoop_none (f : Item → Bool) (total : Nat) :
    ∀ (l : List Item) (i : Nat) (acc : Bool),
      (loadlistLoop none (runOfFun f) total i l acc).invoked = l ∧
      (loadlistLoop none (runOfFun f) total i l acc).success = (acc && l.all f) ∧
      (loadlistLoop none (runOfFun f) total i l acc).exitKind = .done ∧
      (loadlistLoop none (runOfFun f) total i l acc).phase = i + l.length := by
  intro l
  induction l with
  | nil => intro i acc; simp [loadlistLoop]
  | cons it rest ih =>
    intro i acc
    obtain ⟨h1, h2, h3, h4⟩ := ih (i + 1) (acc && f it)
    simp [loadlistLoop, runningAt, runOfFun, h1, h2, h3, h4, Bool.and_assoc]
    omega

/-- With a stop request first observed at phase `s`, exactly the first
`s - i` items are handed to `run_tests`. -/
theorem loadlistLoop_take (f : Item → Bool) (total s : Nat) :
    ∀ (l : List Item) (i : Nat) (acc : Bool),
      (loadlistLoop (some s) (runOfFun f) total i l acc).invoked =
        l.take (s - i) := by
  intro l
  induction l with
  | nil => intro i acc; simp [loadlistLoop]
  | cons it rest ih =>
    intro i acc
    by_cases h : i < s
    · have hs : s - i = (s - (i + 1)) + 1 := by omega
      simp [loadlistLoop, runningAt, runOfFun, h, hs, ih]
    · have hs : s - i = 0 := by omega
      simp [loadlistLoop, runningAt, runOfFun, h, hs]

/-- When the stop phase `s` falls inside the remaining items, the loop exits
`stopped` at phase `s` with `overall_success = false`. -/
theorem loadlistLoop_stop_reached (f : Item → Bool) (total s : Nat) :
    ∀ (l : List Item) (i : Nat) (acc : Bool), i ≤ s → s - i < l.length →
      (loadlistLoop (some s) (runOfFun f) total i l acc).success = false ∧
      (loadlistLoop (some s) (runOfFun f) total i l acc).exitKind = .stopped ∧
      (loadlistLoop (some s) (runOfFun f) total i l acc).phase = s := by
  intro l
  induction l with
  | nil => intro i acc h1 h2; simp at h2
  | cons it rest ih =>
    intro i acc h1 h2
    by_cases h : i < s
    · have hlen : s - (i + 1) < rest.length := by
        simp only [List.length_cons] at h2; omega
      obtain ⟨g1, g2, g3⟩ := ih (i + 1) (acc && f it) (by omega) hlen
      simp [loadlistLoop, runningAt, runOfFun, h, g1, g2, g3]
    · have : i = s := by omega
      subst this
      simp [loadlistLoop, runningAt, status_callback]

/-- Every event emitted inside the loadlist loop is either an item header
(`status=running`) or a per-item failure (`status=error`); in particular the
loop itself never broadcasts `stopped` or `completed` events. -/
theorem loadlistLoop_event_statuses (f : Item → Bool) (total : Nat)
    (stopAt : Option Nat) :
    ∀ (l : List Item) (i : Nat) (acc : Bool),
      ∀ e ∈ (loadlistLoop stopAt (runOfFun f) total i l acc).events,
        e.status = "running" ∨ e.status = "error" := by
  intro l
  induction l with
  | nil => intro i acc e he; simp [loadlistLoop] at he
  | cons it rest ih =>
    intro i acc e he
    by_cases h : runningAt stopAt i
    · simp only [loadlistLoop, h, if_true, runOfFun, status_callback,
        List.mem_append, List.mem_singleton] at he
      rcases he with (he | he) | he
      · left; rw [he]
      · rcases hb : f it with _ | _
        · rw [hb] at he; simp at he; right; rw [he]
        · rw [hb] at he; simp at he
      · exact ih (i + 1) (acc && f it) e he
    · simp only [loadlistLoop, h, if_false, status_callback] at he
      simp at he

/-- With stop phase `s`, the `status=error` events of the loop are exactly
the per-item failure reports for failing items among the first `s - i`. -/
theorem loadlistLoop_error_count (f : Item → Bool) (total s : Nat) :
    ∀ (l : List Item) (i : Nat) (acc : Bool),
      ((loadlistLoop (some s) (runOfFun f) total i l acc).events.filter
          (fun e => e.status == "error")).length =
        ((l.take (s - i)).filter (fun it => !f it)).length := by
  intro l
  induction l with
  | nil => intro i acc; simp [loadlistLoop]
  | cons it rest ih =>
    intro i acc
    by_cases h : i < s
    · have hs : s - i = (s - (i + 1)) + 1 := by omega
      rcases hb : f it with _ | _ <;>
        simp [loadlistLoop, runningAt, runOfFun, h, hs, hb, status_callback,
          header_msg, List.filter_append, ih]
    · have hs : s - i = 0 := by omega
      simp [loadlistLoop, runningAt, runOfFun, h, hs, status_callback]

/-- C1: with the should-continue predicate never false, the worker invokes
`run_tests` for every loadlist item (a failing item does not halt the
iteration), `overall_success` is the AND of all item results, and the final
broadcast is `status=error` when any item failed and `status=completed`
otherwise. -/
theorem C1_partial_failure (cfg : TestConfig) (f : Item → Bool)
    (model_name : String) :
    (execute_model_test .resolved true (runOfFun f) (.ok ()) none cfg
        model_name).invoked = cfg.loadlist ∧
    (execute_model_test .resolved true (runOfFun f) (.ok ()) none cfg
        model_name).success = cfg.loadlist.all f ∧
    (execute_model_test .resolved true (runOfFun f) (.ok ()) none cfg
        model_name).events.getLast? =
      some ⟨(if cfg.loadlist.all f then "Test completed successfully for SN: "
             else "Test finished with errors for SN: ") ++ cfg.serial_number,
            if cfg.loadlist.all f then "completed" else "error"⟩ := by
  obtain ⟨h1, h2, h3, h4⟩ :=
    loadlistLoop_none f cfg.loadlist.length cfg.loadlist 0 true
  simp only [execute_model_test, if_true, h1, h2, h3, h4, runningAt,
    status_callback, Bool.true_and]
  refine ⟨trivial, trivial, ?_⟩
  rcases hall : cfg.loadlist.all f with _ | _ <;>
    · simp only [hall, if_true, if_false, Bool.false_eq_true, ite_false,
        ite_true]
      exact List.getLast?_concat _

/-- C2: every worker path — plugin-resolution failure, setup failure, a
`run_tests` exception, a `cleanup` exception, a stop at any point, or
normal completion — ends with the `finally` reset: `test_running = false`,
`current_test = None`, and the plugin instance cleared. -/
theorem C2_runstate_reset (res : ResolutionOutcome) (setupOk : Bool)
    (runTests : Nat → Item → Except String Bool)
    (cleanupRes : Except String Unit) (stopAt : Option Nat)
    (cfg : TestConfig) (model_name : String) :
    (execute_model_test res setupOk runTests cleanupRes stopAt cfg
        model_name).finalState = idleRunState := by
  cases res <;> (simp only [execute_model_test]; repeat' split) <;> rfl

/-- C3: the sequence of `run_tests` invocations is exactly the loadlist in
listed order; with a stop first observed at phase `s` it is exactly the
first `s` items, and with no stop it is the whole loadlist. -/
theorem C3_invocation_order (cfg : TestConfig) (f : Item → Bool)
    (model_name : String) (stopAt : Option Nat) :
    (execute_model_test .resolved true (runOfFun f) (.ok ()) stopAt cfg
        model_name).invoked =
      (match stopAt with
       | none => cfg.loadlist
       | some s => cfg.loadlist.take s) := by
  have hbase :
      (execute_model_test .resolved true (runOfFun f) (.ok ()) stopAt cfg
          model_name).invoked =
        (loadlistLoop stopAt (runOfFun f) cfg.loadlist.length 0
            cfg.loadlist true).invoked := by
    simp only [execute_model_test, if_true]
    repeat' split <;> rfl
  rw [hbase]
  cases stopAt with
  | none => exact (loadlistLoop_none f cfg.loadlist.length cfg.loadlist 0 true).1
  | some s =>
    have := loadlistLoop_take f cfg.loadlist.length s cfg.loadlist 0 true
    simpa using this

/-- C4 (counterexample to the claim as stated): with a one-item loadlist and
the should-continue predicate already false at the check before item 0, the
worker broadcasts nothing at all — in particular no `status=stopped` Event —
because the `status_callback` it hands the stopped message to rechecks
`test_running` and discards it. -/
theorem C4_counterexample :
    runningAt (some 0) 0 = false ∧
    (execute_model_test .resolved true (runOfFun (fun _ => true)) (.ok ())
        (some 0) cfgSN1 "ModelC").events = [] := by
  constructor <;> rfl

/-- C4 (amended): when the should-continue predicate goes false at the check
before item `s`, the worker hands a stopped message to the status callback
but the callback discards it (the flag is already false), so no
`status=stopped` — and no `status=completed` — Event is broadcast by the
worker; `overall_success` is marked false, the loop breaks with only the
first `s` items processed, and the only `status=error` events are the
per-item failure reports for items before the stop (no terminal error
Event follows). -/
theorem C4_stop_semantics (cfg : TestConfig) (f : Item → Bool)
    (model_name : String) (s : Nat) (hs : s < cfg.loadlist.length) :
    (execute_model_test .resolved true (runOfFun f) (.ok ()) (some s) cfg
        model_name).invoked = cfg.loadlist.take s ∧
    (execute_model_test .resolved true (runOfFun f) (.ok ()) (some s) cfg
        model_name).success = false ∧
    ((execute_model_test .resolved true (runOfFun f) (.ok ()) (some s) cfg
        model_name).events.all
      (fun e => !(e.status == "stopped") && !(e.status == "completed"))) = true ∧
    ((execute_model_test .resolved true (runOfFun f) (.ok ()) (some s) cfg
        model_name).events.filter (fun e => e.status == "error")).length =
      ((cfg.loadlist.take s).filter (fun it => !f it)).length := by
  obtain ⟨g1, g2, g3⟩ :=
    loadlistLoop_stop_reached f cfg.loadlist.length s cfg.loadlist 0 true
      (Nat.zero_le s) (by simpa using hs)
  have ht := loadlistLoop_take f cfg.loadlist.length s cfg.loadlist 0 true
  have hcount :=
    loadlistLoop_error_count f cfg.loadlist.length s cfg.loadlist 0 true
  have hst := loadlistLoop_event_statuses f cfg.loadlist.length (some s)
    cfg.loadlist 0 true
  have hphase : runningAt (some s) s = false := by simp [runningAt]
  have hev : (execute_model_test .resolved true (runOfFun f) (.ok ()) (some s)
      cfg model_name).events =
      status_callback (runningAt (some s) 0)
        ("Setting up " ++ model_name ++ " test environment...") "running" ++
      (loadlistLoop (some s) (runOfFun f) cfg.loadlist.length 0 cfg.loadlist
        true).events := by
    simp [execute_model_test, g2, g3, hphase, status_callback_false]
  have hinv : (execute_model_test .resolved true (runOfFun f) (.ok ())
      (some s) cfg model_name).invoked =
      (loadlistLoop (some s) (runOfFun f) cfg.loadlist.length 0 cfg.loadlist
        true).invoked := by
    simp [execute_model_test, g2]
  have hsucc : (execute_model_test .resolved true (runOfFun f) (.ok ())
      (some s) cfg model_name).success =
      (loadlistLoop (some s) (runOfFun f) cfg.loadlist.length 0 cfg.loadlist
        true).success := by
    simp [execute_model_test, g2, g3, hphase]
  have hev0 : ∀ e ∈ status_callback (runningAt (some s) 0)
      ("Setting up " ++ model_name ++ " test environment...") "running",
      e.status = "running" := by
    intro e he
    rcases hru : runningAt (some s) 0 with _ | _
    · rw [hru, status_callback_false] at he; simp at he
    · rw [hru, status_callback_true] at he
      simp at he; rw [he]
  refine ⟨by rw [hinv, ht]; simp, by rw [hsucc]; exact g1, ?_, ?_⟩
  · rw [hev, List.all_eq_true]
    intro e he
    have hrunerr : e.status = "running" ∨ e.status = "error" := by
      rcases List.mem_append.mp he with h | h
      · exact Or.inl (hev0 e h)
      · exact hst e h
    rcases hrunerr with h | h <;> rw [h] <;> decide
  · rw [hev, List.filter_append, List.length_append]
    have hz : ((status_callback (runningAt (some s) 0)
        ("Setting up " ++ model_name ++ " test environment...")
        "running").filter (fun e => e.status == "error")).length = 0 := by
      rcases hru : runningAt (some s) 0 with _ | _ <;>
        simp [hru, status_callback_false, status_callback_true]
    rw [hz, hcount]
    simp

/-- C4 witness: the amended statement at a concrete input (stop observed
before item 0 of a one-item loadlist). -/
theorem C4_stop_semantics_witness :
    (execute_model_test .resolved true (runOfFun (fun _ => false)) (.ok ())
        (some 0) cfgSN1 "ModelC").invoked = cfgSN1.loadlist.take 0 ∧
    (execute_model_test .resolved true (runOfFun (fun _ => false)) (.ok ())
        (some 0) cfgSN1 "ModelC").success = false ∧
    ((execute_model_test .resolved true (runOfFun (fun _ => false)) (.ok ())
        (some 0) cfgSN1 "ModelC").events.all
      (fun e => !(e.status == "stopped") && !(e.status == "completed"))) = true ∧
    ((execute_model_test .resolved true (runOfFun (fun _ => false)) (.ok ())
        (some 0) cfgSN1 "ModelC").events.filter
        (fun e => e.status == "error")).length =
      ((cfgSN1.loadlist.take 0).filter (fun it => !(fun _ => false) it)).length :=
  C4_stop_semantics cfgSN1 (fun _ => false) "ModelC" 0 (by decide)

/-- C10: any message reported through the Engine-supplied status callback
while `test_running` is false is discarded and broadcast to no session. -/
theorem C10_callback_discard (message status : String) :
    status_callback false message status = [] := rfl

/-- C6: a `start` command received while a test is running is answered with
exactly one `status=running` Event to the sender only ("Test already
running. Please stop current test first."), nothing is broadcast to other
sessions, the server state is unchanged, and no worker is spawned — the
request is rejected, never queued. -/
theorem C6_start_while_running (st : ServerState)
    (test_config : Option RawConfig) (h : st.test_running = true) :
    handle_start_command st test_config =
      ⟨[⟨"Test already running. Please stop current test first.", "running"⟩],
        [], st, none⟩ := by
  simp [handle_start_command, h]

/-- C6 witness: the rejection at a concrete running state and a concrete
(well-formed) configuration. -/
theorem C6_start_while_running_witness :
    handle_start_command ⟨true, none⟩
        (some ⟨some "SN1", some "ModelC", some "S1", some [item25]⟩) =
      ⟨[⟨"Test already running. Please stop current test first.", "running"⟩],
        [], ⟨true, none⟩, none⟩ :=
  C6_start_while_running ⟨true, none⟩
    (some ⟨some "SN1", some "ModelC", some "S1", some [item25]⟩) rfl

/-- C8: a `stop` command received while idle yields a `status=idle` Event to
the sender only and leaves the state unchanged; applying `stop` again in the
resulting state gives the same answer (idempotence). -/
theorem C8_stop_while_idle (st : ServerState) (h : st.test_running = false) :
    handle_stop_command st =
      ⟨[⟨"No test currently running", "idle"⟩], [], st, none⟩ ∧
    handle_stop_command (handle_stop_command st).state =
      handle_stop_command st := by
  constructor
  · simp [handle_stop_command, h]
  · simp [handle_stop_command, h]

/-- C8 witness: idempotent `stop` at the concrete idle state. -/
theorem C8_stop_while_idle_witness :
    handle_stop_command ⟨false, none⟩ =
      ⟨[⟨"No test currently running", "idle"⟩], [], ⟨false, none⟩, none⟩ ∧
    handle_stop_command (handle_stop_command ⟨false, none⟩).state =
      handle_stop_command ⟨false, none⟩ :=
  C8_stop_while_idle ⟨false, none⟩ rfl

/-- C9: the dispatcher resolves a test-case name through
`normalize_test_name` (lowercase, spaces and slashes to underscores); a name
whose resolved method does not exist yields a failed result whose message
says the test case is not implemented, and a method that raises is caught
and converted into a failed result — `run_test_by_name` never propagates an
exception to its caller. -/
theorem C9_dispatcher (methods : String → Option (Except String Bool))
    (test_name : String) :
    (methods (normalize_test_name test_name) = none →
      run_test_by_name methods test_name =
        ⟨false, "Test case \x27" ++ test_name ++
          "\x27 is not implemented in TestCases2."⟩) ∧
    (∀ e : String, methods (normalize_test_name test_name) = some (.error e) →
      run_test_by_name methods test_name =
        ⟨false, "Execution error in \x27" ++ test_name ++ "\x27: " ++ e⟩) := by
  constructor
  · intro h; simp [run_test_by_name, h]
  · intro e h; simp [run_test_by_name, h]

/-- `foldMin p ps` is `p` or an element of `ps`. -/
theorem foldMin_mem : ∀ (ps : List Int) (p : Int),
    foldMin p ps = p ∨ foldMin p ps ∈ ps := by
  intro ps
  induction ps with
  | nil => intro p; left; rfl
  | cons q qs ih =>
    intro p
    rcases ih (min p q) with h | h
    · rcases min_choice p q with hm | hm
      · left; rw [foldMin, h, hm]
      · right; rw [foldMin, h, hm]; exact List.mem_cons_self q qs
    · right; rw [foldMin]; exact List.mem_cons_of_mem q h

/-- `foldMin p ps` is a lower bound of `p` and of every element of `ps`. -/
theorem foldMin_le : ∀ (ps : List Int) (p : Int),
    foldMin p ps ≤ p ∧ ∀ x ∈ ps, foldMin p ps ≤ x := by
  intro ps
  induction ps with
  | nil =>
    intro p
    exact ⟨le_refl p, by intro x hx; simp at hx⟩
  | cons q qs ih =>
    intro p
    obtain ⟨h1, h2⟩ := ih (min p q)
    rw [foldMin]
    refine ⟨le_trans h1 (min_le_left p q), ?_⟩
    intro x hx
    rcases List.mem_cons.mp hx with rfl | hx
    · exact le_trans h1 (min_le_right p x)
    · exact h2 x hx

/-- C7: a rule field equal to 0 is a wildcard; a test-case definition is
returned exactly when some rule that matches the query with numerically
minimal priority among all matching rules references it; when no rule
matches the result is empty; and when the definitions have distinct IDs the
result has no duplicates. -/
theorem C7_testcase_resolution (rules : List Rule) (defs : List TestCaseDef)
    (model_id band_id temperature_id : Int) :
    (∀ d : TestCaseDef,
      d ∈ get_testcase rules defs model_id band_id temperature_id ↔
        d ∈ defs ∧ ∃ r ∈ rules,
          ruleMatches model_id band_id temperature_id r = true ∧
          (∀ q ∈ rules,
            ruleMatches model_id band_id temperature_id q = true →
            r.Priority ≤ q.Priority) ∧
          r.TestCaseID = d.ID) ∧
    ((∀ r ∈ rules, ruleMatches model_id band_id temperature_id r = false) →
      get_testcase rules defs model_id band_id temperature_id = []) ∧
    ((defs.map (·.ID)).Nodup →
      ((get_testcase rules defs model_id band_id temperature_id).map
          (·.ID)).Nodup) := by
  rcases hsplit : rules.filter (ruleMatches model_id band_id temperature_id)
    with _ | ⟨a, rest⟩
  · have hg : get_testcase rules defs model_id band_id temperature_id = [] := by
      simp [get_testcase, hsplit]
    have hno : ∀ r ∈ rules,
        ¬ ruleMatches model_id band_id temperature_id r = true := by
      simpa using List.filter_eq_nil_iff.mp hsplit
    refine ⟨?_, fun _ => hg, fun _ => by simp [hg]⟩
    intro d
    rw [hg]
    simp only [List.not_mem_nil, false_iff]
    rintro ⟨-, r, hr, hm, -⟩
    exact hno r hr hm
  · have hmemA : ∀ r : Rule, r ∈ a :: rest ↔
        r ∈ rules ∧ ruleMatches model_id band_id temperature_id r = true := by
      intro r
      rw [← hsplit]
      simp [List.mem_filter]
    have hg : get_testcase rules defs model_id band_id temperature_id =
        defs.filter (fun d =>
          ((((a :: rest).filter (fun r =>
                r.Priority ==
                  foldMin a.Priority (rest.map (·.Priority)))).map
              (·.TestCaseID)).dedup).contains d.ID) := by
      simp [get_testcase, hsplit]
    obtain ⟨hle1, hle2⟩ := foldMin_le (rest.map (·.Priority)) a.Priority
    have hlb : ∀ q ∈ a :: rest,
        foldMin a.Priority (rest.map (·.Priority)) ≤ q.Priority := by
      intro q hq
      rcases List.mem_cons.mp hq with rfl | hq
      · exact hle1
      · exact hle2 q.Priority (List.mem_map_of_mem _ hq)
    have hex : ∃ r0 ∈ a :: rest,
        r0.Priority = foldMin a.Priority (rest.map (·.Priority)) := by
      rcases foldMin_mem (rest.map (·.Priority)) a.Priority with h | h
      · exact ⟨a, List.mem_cons_self a rest, h.symm⟩
      · obtain ⟨r0, hr0, hpr⟩ := List.mem_map.mp h
        exact ⟨r0, List.mem_cons_of_mem a hr0, hpr⟩
    refine ⟨?_, ?_, ?_⟩
    · intro d
      rw [hg]
      rw [List.mem_filter]
      constructor
      · rintro ⟨hdd, hcont⟩
        have hid : d.ID ∈ (((a :: rest).filter (fun r =>
            r.Priority ==
              foldMin a.Priority (rest.map (·.Priority)))).map
            (·.TestCaseID)).dedup := by
          simpa [List.contains, List.elem_iff] using hcont
        rw [List.mem_dedup] at hid
        obtain ⟨r, hrw, hrid⟩ := List.mem_map.mp hid
        rw [List.mem_filter] at hrw
        obtain ⟨hra, hrp⟩ := hrw
        have hrp' : r.Priority =
            foldMin a.Priority (rest.map (·.Priority)) := by
          simpa using hrp
        obtain ⟨hrrules, hrM⟩ := (hmemA r).mp hra
        refine ⟨hdd, r, hrrules, hrM, ?_, hrid⟩
        intro q hq hqM
        rw [hrp']
        exact hlb q ((hmemA q).mpr ⟨hq, hqM⟩)
      · rintro ⟨hdd, r, hrr, hrM, hmin, hrid⟩
        have hra : r ∈ a :: rest := (hmemA r).mpr ⟨hrr, hrM⟩
        obtain ⟨r0, hr0, hr0p⟩ := hex
        have h1 : r.Priority ≤
            foldMin a.Priority (rest.map (·.Priority)) := by
          rw [← hr0p]
          obtain ⟨hr0r, hr0M⟩ := (hmemA r0).mp hr0
          exact hmin r0 hr0r hr0M
        have heq : r.Priority = foldMin a.Priority (rest.map (·.Priority)) :=
          le_antisymm h1 (hlb r hra)
        refine ⟨hdd, ?_⟩
        have hid : d.ID ∈ (((a :: rest).filter (fun r =>
            r.Priority ==
              foldMin a.Priority (rest.map (·.Priority)))).map
            (·.TestCaseID)).dedup := by
          rw [List.mem_dedup]
          exact List.mem_map.mpr ⟨r, List.mem_filter.mpr ⟨hra, by simp [heq]⟩,
            hrid⟩
        simpa [List.contains, List.elem_iff] using hid
    · intro hno
      exfalso
      have ha : a ∈ rules.filter (ruleMatches model_id band_id temperature_id) := by
        rw [hsplit]; exact List.mem_cons_self a rest
      rw [List.mem_filter] at ha
      rw [hno a ha.1] at ha
      exact Bool.false_ne_true ha.2
    · intro hnd
      rw [hg]
      exact hnd.sublist (List.Sublist.map _ (List.filter_sublist defs))

/-- Decoding a hex digit inverts encoding one. -/
theorem hexVal_hexDigitChar (d : Nat) (hd : d < 16) :
    hexVal (hexDigitChar d) = some d := by
  interval_cases d <;> decide

/-- Decoding four hex digits inverts `toHex4`. -/
theorem hex4_toHex4 (n : Nat) (hn : n < 65536) :
    hex4 (hexDigitChar (n / 4096 % 16)) (hexDigitChar (n / 256 % 16))
      (hexDigitChar (n / 16 % 16)) (hexDigitChar (n % 16)) = some n := by
  rw [hex4, hexVal_hexDigitChar _ (by omega), hexVal_hexDigitChar _ (by omega),
    hexVal_hexDigitChar _ (by omega), hexVal_hexDigitChar _ (by omega)]
  simp only [Option.bind_eq_bind, Option.some_bind, Option.pure_def]
  congr 1
  omega

/-- The scalar values a `Char` can hold (no surrogates, below `0x110000`). -/
theorem char_toNat_valid (c : Char) :
    c.toNat < 55296 ∨ (57344 ≤ c.toNat ∧ c.toNat < 1114112) := by
  have h := c.valid
  simp only [UInt32.isValidChar, Nat.isValidChar] at h
  exact h

/-- String-body decoding: the closing quote. -/
theorem pjsb_quote (f : Nat) (t : List Char) :
    parse_json_string_body (f + 1) ('\"' :: t) = some ([], t) := rfl

/-- String-body decoding: the `\"` escape. -/
theorem pjsb_esc_quote (f : Nat) (t : List Char) :
    parse_json_string_body (f + 1) ('\\' :: '\"' :: t) =
      consOut '\"' (parse_json_string_body f t) := rfl

/-- String-body decoding: the `\\` escape. -/
theorem pjsb_esc_backslash (f : Nat) (t : List Char) :
    parse_json_string_body (f + 1) ('\\' :: '\\' :: t) =
      consOut '\\' (parse_json_string_body f t) := rfl

/-- String-body decoding: the `\n` escape. -/
theorem pjsb_esc_n (f : Nat) (t : List Char) :
    parse_json_string_body (f + 1) ('\\' :: 'n' :: t) =
      consOut '\n' (parse_json_string_body f t) := rfl

/-- String-body decoding: the `\r` escape. -/
theorem pjsb_esc_r (f : Nat) (t : List Char) :
    parse_json_string_body (f + 1) ('\\' :: 'r' :: t) =
      consOut '\r' (parse_json_string_body f t) := rfl

/-- String-body decoding: the `\t` escape. -/
theorem pjsb_esc_t (f : Nat) (t : List Char) :
    parse_json_string_body (f + 1) ('\\' :: 't' :: t) =
      consOut '\t' (parse_json_string_body f t) := rfl

/-- String-body decoding: the `\b` escape. -/
theorem pjsb_esc_b (f : Nat) (t : List Char) :
    parse_json_string_body (f + 1) ('\\' :: 'b' :: t) =
      consOut (Char.ofNat 8) (parse_json_string_body f t) := rfl

/-- String-body decoding: the `\f` escape. -/
theorem pjsb_esc_f (f : Nat) (t : List Char) :
    parse_json_string_body (f + 1) ('\\' :: 'f' :: t) =
      consOut (Char.ofNat 12) (parse_json_string_body f t) := rfl

/-- String-body decoding: an unescaped printable character. -/
theorem pjsb_plain (f : Nat) (c : Char) (t : List Char) (h1 : c ≠ '\"')
    (h2 : c ≠ '\\') (h3 : 32 ≤ c.toNat) :
    parse_json_string_body (f + 1) (c :: t) =
      consOut c (parse_json_string_body f t) := by
  simp only [parse_json_string_body]
  rw [if_neg h1, if_neg h2, if_neg (by omega)]

/-- String-body decoding: a `\uXXXX` escape with a non-surrogate value. -/
theorem pjsb_u (f : Nat) (d1 d2 d3 d4 : Char) (n : Nat) (t : List Char)
    (hh : hex4 d1 d2 d3 d4 = some n) (hr : n < 55296 ∨ 57344 ≤ n) :
    parse_json_string_body (f + 1)
        ('\\' :: 'u' :: d1 :: d2 :: d3 :: d4 :: t) =
      consOut (Char.ofNat n) (parse_json_string_body f t) := by
  simp only [parse_json_string_body, hh, if_true]
  rw [if_pos hr]
  simp

/-- String-body decoding: a surrogate pair of `\uXXXX` escapes. -/
theorem pjsb_surrogate (f : Nat) (d1 d2 d3 d4 g1 g2 g3 g4 : Char) (n m : Nat)
    (t : List Char) (hh1 : hex4 d1 d2 d3 d4 = some n)
    (hh2 : hex4 g1 g2 g3 g4 = some m)
    (hn2 : n < 56320) (hm1 : 56320 ≤ m) (hm2 : m < 57344)
    (hn1 : 55296 ≤ n) :
    parse_json_string_body (f + 1) ('\\' :: 'u' :: d1 :: d2 :: d3 :: d4 ::
        '\\' :: 'u' :: g1 :: g2 :: g3 :: g4 :: t) =
      consOut (Char.ofNat (65536 + (n - 55296) * 1024 + (m - 56320)))
        (parse_json_string_body f t) := by
  simp only [parse_json_string_body, hh1, hh2, if_true]
  rw [if_neg (by decide : ¬ ('\\' : Char) = '\"'),
    if_neg (by omega : ¬ (n < 55296 ∨ 57344 ≤ n)), if_pos hn2,
    if_pos (⟨trivial, trivial⟩ : True ∧ True), if_pos ⟨hm1, hm2⟩]

/-- Escaping a character yields at least one character. -/
theorem escapeChar_length_pos (c : Char) : 1 ≤ (escapeChar c).length := by
  unfold escapeChar
  repeat' split
  all_goals simp

/-- Escaping never shortens a string. -/
theorem length_le_flatMap_escapeChar (cs : List Char) :
    cs.length ≤ (cs.flatMap escapeChar).length := by
  induction cs with
  | nil => simp
  | cons c cs ih =>
    simp only [List.flatMap_cons, List.length_append, List.length_cons]
    have := escapeChar_length_pos c
    omega

/-- Decoding inverts `json.dumps` escaping: the scan of an escaped string
body followed by the closing quote recovers the original characters, for
any budget larger than the decoded length. -/
theorem parse_body_roundtrip :
    ∀ (cs : List Char) (f : Nat) (rest : List Char), cs.length < f →
      parse_json_string_body f (cs.flatMap escapeChar ++ '\"' :: rest) =
        some (cs, rest) := by
  intro cs
  induction cs with
  | nil =>
    intro f rest hf
    cases f with
    | zero => omega
    | succ f => simpa using pjsb_quote f rest
  | cons c cs ih =>
    intro f rest hf
    cases f with
    | zero => omega
    | succ f =>
      have hf' : cs.length < f := by
        simp only [List.length_cons] at hf; omega
      have hrec := ih f rest hf'
      have hne : ∀ lit : Char, lit.toNat ≠ c.toNat → c ≠ lit :=
        fun lit h hc => h (by rw [hc])
      rw [List.flatMap_cons, List.append_assoc]
      by_cases h1 : c = '\"'
      · subst h1
        rw [show escapeChar '\"' = ['\\', '\"'] from rfl]
        simp only [List.cons_append, List.nil_append]
        rw [pjsb_esc_quote, hrec]
        rfl
      by_cases h2 : c = '\\'
      · subst h2
        rw [show escapeChar '\\' = ['\\', '\\'] from rfl]
        simp only [List.cons_append, List.nil_append]
        rw [pjsb_esc_backslash, hrec]
        rfl
      by_cases h3 : c = '\n'
      · subst h3
        rw [show escapeChar '\n' = ['\\', 'n'] from rfl]
        simp only [List.cons_append, List.nil_append]
        rw [pjsb_esc_n, hrec]
        rfl
      by_cases h4 : c = '\r'
      · subst h4
        rw [show escapeChar '\r' = ['\\', 'r'] from rfl]
        simp only [List.cons_append, List.nil_append]
        rw [pjsb_esc_r, hrec]
        rfl
      by_cases h5 : c = '\t'
      · subst h5
        rw [show escapeChar '\t' = ['\\', 't'] from rfl]
        simp only [List.cons_append, List.nil_append]
        rw [pjsb_esc_t, hrec]
        rfl
      by_cases h6 : c.toNat = 8
      · have hesc : escapeChar c = ['\\', 'b'] := by
          unfold escapeChar
          rw [if_neg h1, if_neg h2, if_neg h3, if_neg h4, if_neg h5,
            if_pos h6]
        rw [hesc]
        simp only [List.cons_append, List.nil_append]
        rw [pjsb_esc_b, hrec, show Char.ofNat 8 = c from h6 ▸ Char.ofNat_toNat c]
        rfl
      by_cases h7 : c.toNat = 12
      · have hesc : escapeChar c = ['\\', 'f'] := by
          unfold escapeChar
          rw [if_neg h1, if_neg h2, if_neg h3, if_neg h4, if_neg h5,
            if_neg h6, if_pos h7]
        rw [hesc]
        simp only [List.cons_append, List.nil_append]
        rw [pjsb_esc_f, hrec, show Char.ofNat 12 = c from h7 ▸ Char.ofNat_toNat c]
        rfl
      by_cases h8 : c.toNat < 32 ∨ 127 ≤ c.toNat
      · by_cases h9 : c.toNat < 65536
        · have hesc : escapeChar c = '\\' :: 'u' :: toHex4 c.toNat := by
            unfold escapeChar
            rw [if_neg h1, if_neg h2, if_neg h3, if_neg h4, if_neg h5,
              if_neg h6, if_neg h7, if_pos h8, if_pos h9]
          have hrange : c.toNat < 55296 ∨ 57344 ≤ c.toNat := by
            have := char_toNat_valid c
            omega
          rw [hesc, toHex4]
          simp only [List.cons_append, List.nil_append]
          rw [pjsb_u f _ _ _ _ c.toNat _ (hex4_toHex4 c.toNat h9) hrange,
            hrec, Char.ofNat_toNat]
          rfl
        · have hesc : escapeChar c =
              ('\\' :: 'u' :: toHex4 (55296 + (c.toNat - 65536) / 1024)) ++
              ('\\' :: 'u' :: toHex4 (56320 + (c.toNat - 65536) % 1024)) := by
            unfold escapeChar
            rw [if_neg h1, if_neg h2, if_neg h3, if_neg h4, if_neg h5,
              if_neg h6, if_neg h7, if_pos h8, if_neg h9]
          have hcv := char_toNat_valid c
          have hhi : 55296 + (c.toNat - 65536) / 1024 < 65536 := by omega
          have hlo : 56320 + (c.toNat - 65536) % 1024 < 65536 := by omega
          rw [hesc, toHex4, toHex4]
          simp only [List.cons_append, List.nil_append, List.append_assoc]
          rw [pjsb_surrogate f _ _ _ _ _ _ _ _ _ _ _
            (hex4_toHex4 _ hhi) (hex4_toHex4 _ hlo)
            (by omega) (by omega) (by omega) (by omega), hrec]
          have hchar : 65536 + ((55296 + (c.toNat - 65536) / 1024) - 55296) *
              1024 + ((56320 + (c.toNat - 65536) % 1024) - 56320) = c.toNat := by
            omega
          rw [hchar, Char.ofNat_toNat]
          rfl
      · have hesc : escapeChar c = [c] := by
          unfold escapeChar
          rw [if_neg h1, if_neg h2, if_neg h3, if_neg h4, if_neg h5,
            if_neg h6, if_neg h7, if_neg h8]
        rw [hesc]
        simp only [List.cons_append, List.nil_append]
        rw [pjsb_plain f c _ h1 h2 (by omega), hrec]
        rfl

/-- Decoding a complete encoded JSON string recovers the original
characters and leaves the trailing input untouched. -/
theorem parse_json_string_encode (s : String) (rest : List Char) :
    parse_json_string (encode_json_string s ++ rest) = some (s.data, rest) := by
  have hshape : encode_json_string s ++ rest =
      '\"' :: (s.data.flatMap escapeChar ++ '\"' :: rest) := by
    simp [encode_json_string]
  rw [hshape]
  simp only [parse_json_string]
  refine parse_body_roundtrip s.data _ rest ?_
  have := length_le_flatMap_escapeChar s.data
  simp only [List.length_append, List.length_cons]
  omega

/-- Whitespace skipping stops at a non-whitespace head. -/
theorem skipWS_nonws (c : Char) (h : isJsonWS c = false) (t : List Char) :
    skipWS (c :: t) = c :: t := by
  simp [skipWS, List.dropWhile_cons, h]

/-- Whitespace skipping does not touch an encoded string. -/
theorem skipWS_encode (s : String) (t : List Char) :
    skipWS (encode_json_string s ++ t) = encode_json_string s ++ t := by
  have hshape : encode_json_string s ++ t =
      '\"' :: (s.data.flatMap escapeChar ++ '\"' :: t) := by
    simp [encode_json_string]
  rw [hshape, skipWS_nonws _ (by decide)]

/-- Whitespace skipping consumes a leading space. -/
theorem skipWS_space (t : List Char) : skipWS (' ' :: t) = skipWS t := by
  simp [skipWS, List.dropWhile_cons, isJsonWS]

/-- Expecting the character that is there succeeds. -/
theorem expectChar_cons_self (c : Char) (t : List Char) :
    expectChar c (c :: t) = some t := by
  simp [expectChar]

/-- Decoding an encoded event recovers the event and leaves the trailing
input untouched (`raw_decode`'s `end_pos` is the frame length). -/
theorem parse_event_encode (e : Event) (rest : List Char) :
    parse_event (encode_event e ++ rest) = some (e, rest) := by
  have hcolon : ∀ t : List Char, skipWS (':' :: t) = ':' :: t :=
    fun t => skipWS_nonws ':' (by decide) t
  have hcomma : ∀ t : List Char, skipWS (',' :: t) = ',' :: t :=
    fun t => skipWS_nonws ',' (by decide) t
  have hrb : ∀ t : List Char, skipWS (rbrace :: t) = rbrace :: t :=
    fun t => skipWS_nonws rbrace (by decide) t
  have hshape : encode_event e ++ rest =
      lbrace :: (encode_json_string "message" ++
        (':' :: ' ' :: (encode_json_string e.message ++
        (',' :: ' ' :: (encode_json_string "status" ++
        (':' :: ' ' :: (encode_json_string e.status ++
        (rbrace :: rest)))))))) := by
    simp [encode_event, List.append_assoc]
  rw [hshape]
  simp only [parse_event, expectChar_cons_self, Option.bind_eq_bind,
    Option.some_bind, skipWS_encode, parse_json_string_encode, hcolon,
    hcomma, hrb, skipWS_space, eq_self_iff_true, if_true, ite_true]
  rfl

/-- An encoded event starts with the opening brace. -/
theorem encode_event_head (e : Event) :
    encode_event e = lbrace :: (encode_json_string "message" ++
      (':' :: ' ' :: (encode_json_string e.message ++
      (',' :: ' ' :: (encode_json_string "status" ++
      (':' :: ' ' :: (encode_json_string e.status ++ [rbrace]))))))) := by
  simp [encode_event, List.append_assoc]

/-- After a frame the loop skips exactly the one `'\n'` separator (the next
frame, if any, starts with a brace). -/
theorem takeWhile_newline_frames (es : List Event) :
    (('\n' :: frames es).takeWhile isPySpace).length = 1 := by
  cases es with
  | nil => decide
  | cons e es =>
    have hshape : frames (e :: es) = lbrace :: (encode_json_string "message" ++
        (':' :: ' ' :: (encode_json_string e.message ++
        (',' :: ' ' :: (encode_json_string "status" ++
        (':' :: ' ' :: (encode_json_string e.status ++
        (rbrace :: ('\n' :: frames es))))))))) := by
      rw [frames, send_to_client, encode_event_head]
      simp [List.append_assoc]
    rw [hshape]
    rw [List.takeWhile_cons, List.takeWhile_cons]
    simp [isPySpace, lbrace]

/-- A frame is never empty. -/
theorem send_to_client_length_pos (e : Event) :
    0 < (send_to_client e).length := by
  rw [send_to_client]
  simp

/-- There are at least as many frame characters as framed events. -/
theorem length_le_frames (es : List Event) :
    es.length ≤ (frames es).length := by
  induction es with
  | nil => simp [frames]
  | cons e es ih =>
    rw [frames]
    simp only [List.length_append, List.length_cons]
    have := send_to_client_length_pos e
    omega

/-- The decode loop exits when `start_pos` has reached the buffer length. -/
theorem processLoop_exit (fuel : Nat) (buffer : List Char) (startPos : Nat)
    (acc : List Event) (h : ¬ startPos < buffer.length) :
    processLoop fuel buffer startPos acc = ⟨acc, startPos, buffer⟩ := by
  cases fuel with
  | zero => rfl
  | succ fuel => simp only [processLoop, if_neg h]

/-- One successful decode step of the loop: the object is handed on and
`start_pos` advances past the consumed characters and the whitespace. -/
theorem processLoop_step (fuel : Nat) (buffer : List Char) (startPos : Nat)
    (acc : List Event) (e : Event) (rem : List Char) (next : Nat)
    (hlt : startPos < buffer.length)
    (hparse : parse_event (buffer.drop startPos) = some (e, rem))
    (hnext : next = startPos + ((buffer.drop startPos).length - rem.length) +
      ((buffer.drop (startPos +
        ((buffer.drop startPos).length - rem.length))).takeWhile
          isPySpace).length) :
    processLoop (fuel + 1) buffer startPos acc =
      processLoop fuel buffer next (acc ++ [e]) := by
  subst hnext
  simp only [processLoop, hparse, if_pos hlt]

/-- Running the decode loop over the tail of a buffer made of complete
frames decodes exactly the framed events, in order, consuming everything. -/
theorem processLoop_frames :
    ∀ (es : List Event) (done : List Char) (acc : List Event) (fuel : Nat),
      es.length < fuel →
      processLoop fuel (done ++ frames es) done.length acc =
        ⟨acc ++ es, done.length + (frames es).length, done ++ frames es⟩ := by
  intro es
  induction es with
  | nil =>
    intro done acc fuel _
    rw [show frames [] = [] from rfl]
    simp only [List.append_nil, List.length_nil, Nat.add_zero]
    exact processLoop_exit fuel done done.length acc (by omega)
  | cons e es ih =>
    intro done acc fuel hfuel
    cases fuel with
    | zero => omega
    | succ fuel =>
      have hflen : (frames (e :: es)).length =
          (encode_event e).length + 1 + (frames es).length := by
        rw [frames, send_to_client]
        simp only [List.length_append, List.length_cons, List.length_nil]
      have hbuf : done ++ frames (e :: es) =
          done ++ (encode_event e ++ ('\n' :: frames es)) := by
        rw [frames, send_to_client]
        simp [List.append_assoc]
      have hlt : done.length < (done ++ frames (e :: es)).length := by
        simp only [List.length_append]
        omega
      have hdrop0 : (done ++ frames (e :: es)).drop done.length =
          encode_event e ++ ('\n' :: frames es) := by
        rw [hbuf, List.drop_left]
      have hparse : parse_event ((done ++ frames (e :: es)).drop done.length) =
          some (e, '\n' :: frames es) := by
        rw [hdrop0]
        exact parse_event_encode e ('\n' :: frames es)
      have hconsumed : ((done ++ frames (e :: es)).drop done.length).length -
          ('\n' :: frames es).length = (encode_event e).length := by
        rw [hdrop0]
        simp only [List.length_append, List.length_cons]
        omega
      have hdrop1 : (done ++ frames (e :: es)).drop
          (done.length + (encode_event e).length) = '\n' :: frames es := by
        have hsplit : done ++ frames (e :: es) =
            (done ++ encode_event e) ++ ('\n' :: frames es) := by
          rw [hbuf, List.append_assoc]
        have hlen2 : done.length + (encode_event e).length =
            (done ++ encode_event e).length := by
          simp
        rw [hsplit, hlen2, List.drop_left]
      have hnext : (done ++ send_to_client e).length =
          done.length + (((done ++ frames (e :: es)).drop done.length).length -
            ('\n' :: frames es).length) +
          (((done ++ frames (e :: es)).drop
            (done.length + (((done ++ frames (e :: es)).drop
              done.length).length - ('\n' :: frames es).length))).takeWhile
                isPySpace).length := by
        rw [hconsumed, hdrop1, takeWhile_newline_frames]
        rw [send_to_client]
        simp only [List.length_append, List.length_cons, List.length_nil]
        omega
      rw [processLoop_step fuel (done ++ frames (e :: es)) done.length acc e
        ('\n' :: frames es) (done ++ send_to_client e).length hlt hparse hnext]
      have hbuf2 : done ++ frames (e :: es) =
          (done ++ send_to_client e) ++ frames es := by
        rw [frames, List.append_assoc]
      rw [hbuf2, ih (done ++ send_to_client e) (acc ++ [e]) fuel (by
        simp only [List.length_cons] at hfuel
        omega)]
      have hlen3 : (done ++ send_to_client e).length + (frames es).length =
          done.length + (frames (e :: es)).length := by
        simp only [List.length_append, hflen, send_to_client]
        simp
        omega
      rw [hlen3]
      simp

/-- The full `process_buffer` on a buffer of complete frames: every framed
event is handed to `handle_message` in order and the buffer is left empty. -/
theorem process_buffer_frames (es : List Event) :
    process_buffer (frames es) = (es, []) := by
  have hloop := processLoop_frames es [] [] ((frames es).length + 1002)
    (by have := length_le_frames es; omega)
  simp only [List.nil_append, List.length_nil, Nat.zero_add] at hloop
  rw [process_buffer, hloop]
  by_cases hz : (frames es).length > 0
  · simp only [hz, if_true, ite_true, List.drop_length]
  · have : frames es = [] := List.eq_nil_of_length_eq_zero (by omega)
    simp [this]

/-- C5: an Event serialized by the server's `send_to_client` frame
(`json.dumps` plus a trailing newline) and fed to the client's buffer
decoder is decoded back to the identical structured object with nothing
left in the buffer, and the same holds when two frames are written
back-to-back before any decode (concatenation robustness). -/
theorem C5_framing_roundtrip (e1 e2 : Event) :
    process_buffer (send_to_client e1) = ([e1], []) ∧
    process_buffer (send_to_client e1 ++ send_to_client e2) =
      ([e1, e2], []) := by
  constructor
  · have h : send_to_client e1 = frames [e1] := by
      simp [frames]
    rw [h, process_buffer_frames]
  · have h : send_to_client e1 ++ send_to_client e2 = frames [e1, e2] := by
      simp [frames]
    rw [h, process_buffer_frames]

end Client1
